import Mathlib

/-!
Verification of the `Key` class of sotez (src/src/key.ts) against its
natural-language specification.

The embedding is shallow: byte buffers are `List Nat`, JavaScript string
operations are modelled on Lean strings, thrown errors become
`Except KeyError`, and the external primitive libraries (libsodium,
pbkdf2, secp256k1) together with the codec module (`utility.ts`) and the
prefix byte table (`constants.ts`), none of which are under src/, are
gathered in an abstract `Primitives` structure whose fields follow the
capability interface the spec describes in its sections 4.1 and 6.
-/

/-- Error kinds, following the vocabulary of the spec (section 7).
`invalidCurve` is the kind the spec calls InvalidCurvePrefix.
`codecTypeError` and `primitiveTypeError` model JavaScript type failures
raised inside the codec or a primitive library when the Key code hands
them an absent (undefined) value; they are outside the spec list. -/
inductive KeyError where
  | invalidCurve
  | invalidKeyLength
  | invalidKeyTag
  | missingPassphrase
  | decryptionFailed
  | unsupportedCurve
  | invalidKey
  | noSecretKey
  | missingPublicKey
  | curveMismatch
  | invalidSignature
  | decodeError
  | illegalState
  | codecTypeError
  | primitiveTypeError

deriving instance DecidableEq, Repr for KeyError

/-- Modelled from the spec: the byte content of a JavaScript string, as
produced by the UTF-8 conversions the external libraries apply to string
arguments (Codec, section 4.1). Keys and tags are ASCII, where this is
exact. -/
def strBytes (s : String) : List Nat := s.toList.map Char.toNat

/-- JavaScript `s.slice(a, b)` (also `substr` and `substring` at the call
sites in key.ts, which agree with `slice` for the arguments used there):
the characters of `s` from index `a` (inclusive) to `b` (exclusive),
clamped to the length of `s`. -/
def jsSlice (s : String) (a b : Nat) : String :=
  String.mk ((s.toList.drop a).take (b - a))

/-- Modelled from the spec: Codec `hexToBytes` (`utility.hex2buf`), total
on strings; each pair of hex digits becomes one byte, a trailing odd digit
is dropped, and a non-hex digit counts as zero. -/
def hexDigit (c : Char) : Nat :=
  if 48 ≤ c.toNat ∧ c.toNat ≤ 57 then c.toNat - 48
  else if 97 ≤ c.toNat ∧ c.toNat ≤ 102 then c.toNat - 87
  else if 65 ≤ c.toNat ∧ c.toNat ≤ 70 then c.toNat - 55
  else 0

def hex2bufAux : List Char → List Nat
  | a :: b :: rest => (16 * hexDigit a + hexDigit b) :: hex2bufAux rest
  | _ => []

def hex2buf (s : String) : List Nat := hex2bufAux s.toList

/-- Modelled from the spec: Codec `bytesToHex` (`utility.buf2hex`). -/
def hexChar (n : Nat) : Char :=
  if n < 10 then Char.ofNat (48 + n) else Char.ofNat (87 + n)

def buf2hex (b : List Nat) : String :=
  String.mk (b.foldr (fun x acc => hexChar (x / 16 % 16) :: hexChar (x % 16) :: acc) [])

/-- Modelled from the spec: the Primitive Provider capability interface
(section 6) together with the Codec (section 4.1) and the read-only
prefix byte table of `constants.ts` (section 3, Prefix Table), all of
which live outside src/. Fallible operations return `Except Unit` or
`Option`; `signDetached` receives the possibly absent secret key exactly
as the JavaScript call site passes `this._secretKey`, and `b58cencode`
receives possibly absent payload and table entries for the same reason.
`tagBytes` maps a tag name such as "edsk" to the binary prefix bytes, or
`none` where the table has no such entry (a JavaScript undefined). -/
structure Primitives where
  seedKeypair : List Nat → List Nat × List Nat
  genericHash : Nat → List Nat → List Nat
  signDetached : List Nat → Option (List Nat) → Except Unit (List Nat)
  verifyDetached : List Nat → List Nat → List Nat → Except Unit Bool
  secpPubCreate : List Nat → List Nat
  pbkdf2Sync : List Nat → List Nat → Nat → Nat → List Nat
  secretboxOpen : List Nat → List Nat → List Nat → Option (List Nat)
  b58cencode : Option (List Nat) → Option (List Nat) → Except Unit String
  b58cdecode : String → Option (List Nat) → Except Unit (List Nat)
  nfkd : String → String
  tagBytes : String → Option (List Nat)

/-- The mutable fields of a `Key` object. Defaults are the values the
constructor assigns before `initialize` runs: the ledger fields are set
eagerly, the key material fields are still undefined (`none`). -/
structure KeyState where
  _publicKey : Option (List Nat) := none
  _secretKey : Option (List Nat) := none
  _isSecret : Option Bool := none
  curve : Option String := none
  _isLedger : Bool := false
  _ledgerPath : String := "44\x27/1729\x27/0\x27/0\x27"
  _ledgerCurve : Nat := 0

deriving instance DecidableEq, Repr for KeyState

/-- The state of a freshly constructed Key before `initialize` has run
(`new Key(...)` synchronously, readiness not yet settled). -/
def freshKey : KeyState := {}

/-- JavaScript template interpolation of the `curve` field: an undefined
field prints as the string "undefined". -/
def jsCurveStr : Option String → String
  | some c => c
  | none => "undefined"

/-- `this.curve = key.substr(0, 2)` (key.ts line 122). -/
def keyCurve (key : String) : String := jsSlice key 0 2

/-- The encryption marker test of key.ts line 132: the character at
offset 2 equals e. -/
def keyEncrypted (key : String) : Bool := jsSlice key 2 3 == "e"

/-- `const publicOrSecret = encrypted ? key.slice(3, 5) : key.slice(2, 4)`
(key.ts line 133). -/
def keyTag (key : String) : String :=
  if keyEncrypted key then jsSlice key 3 5 else jsSlice key 2 4

/-- The tag name under which key.ts lines 141 to 145 look up the
base58check prefix for decoding: `{curve}{e if encrypted}sk` when the
credential is a secret key, and `{curve}pk` otherwise. -/
def decodeTagName (curve : String) (encrypted isSecret : Bool) : String :=
  if isSecret then curve ++ (if encrypted then "e" else "") ++ "sk"
  else curve ++ "pk"

/-- Modelled from the spec: the prefix name the spec (section 4.3 step 5)
says the decode uses, the concatenation `{curve}{e if encrypted}{tag}`. -/
def specDecodeTagName (curve : String) (encrypted : Bool) (tag : String) : String :=
  curve ++ (if encrypted then "e" else "") ++ tag

/-- The decryption step of `initialize` (key.ts lines 147 to 157): when
the credential carries the encryption marker, require a passphrase, split
the decoded bytes into an 8 byte salt and the ciphertext, stretch the
passphrase with PBKDF2 (32768 iterations, 32 bytes) and open the
ciphertext under an all-zero 24 byte nonce. -/
def decryptStep (P : Primitives) (decoded : List Nat) (passphrase : Option String)
    (encrypted : Bool) : Except KeyError (List Nat) :=
  if encrypted then
    match passphrase with
    | none => Except.error KeyError.missingPassphrase
    | some pw =>
      match P.secretboxOpen (decoded.drop 8) (List.replicate 24 0)
          (P.pbkdf2Sync (strBytes pw) (decoded.take 8) 32768 32) with
      | some pt => Except.ok pt
      | none => Except.error KeyError.decryptionFailed
  else Except.ok decoded

/-- `Key.initialize` (key.ts lines 102 to 182) as a function from the
credential inputs to the final object state, or the error thrown.

With an email: require a passphrase, stretch the mnemonic with PBKDF2
over the salt "mnemonic" plus the NFKD normalization of email plus
passphrase (2048 iterations, 64 bytes), expand the first 32 bytes as an
Ed25519 seed, fix the curve to ed.

Without an email: read the curve tag from the first two characters,
validate it against sp, p2, ed, validate the total length against 54, 55,
88, 98, read the encryption marker and the pk or sk tag, base58check
decode under the prefix named by `decodeTagName`, run `decryptStep`, then
store a public key directly or derive the keypair per curve, the p2
secret branch being unsupported. -/
def initKey (P : Primitives) (key : String) (passphrase email : Option String) :
    Except KeyError KeyState :=
  match email with
  | some em =>
    match passphrase with
    | none => Except.error KeyError.missingPassphrase
    | some pw =>
      Except.ok
        { _publicKey := some (P.seedKeypair
            ((P.pbkdf2Sync (strBytes key)
              (strBytes ("mnemonic" ++ P.nfkd (em ++ pw))) 2048 64).take 32)).1,
          _secretKey := some (P.seedKeypair
            ((P.pbkdf2Sync (strBytes key)
              (strBytes ("mnemonic" ++ P.nfkd (em ++ pw))) 2048 64).take 32)).2,
          curve := some "ed",
          _isSecret := some true }
  | none =>
    if keyCurve key == "sp" || keyCurve key == "p2" || keyCurve key == "ed" then
      if key.length == 54 || key.length == 55 || key.length == 88 || key.length == 98 then
        if keyTag key == "pk" || keyTag key == "sk" then
          match P.b58cdecode key
              (P.tagBytes (decodeTagName (keyCurve key) (keyEncrypted key)
                (keyTag key == "sk"))) with
          | Except.error _ => Except.error KeyError.decodeError
          | Except.ok decoded =>
            match decryptStep P decoded passphrase (keyEncrypted key) with
            | Except.error e => Except.error e
            | Except.ok k2 =>
              if keyTag key == "sk" then
                if keyCurve key == "ed" then
                  if k2.length == 64 then
                    Except.ok { curve := some (keyCurve key), _isSecret := some true,
                                _secretKey := some k2, _publicKey := some (k2.drop 32) }
                  else
                    Except.ok { curve := some (keyCurve key), _isSecret := some true,
                                _publicKey := some (P.seedKeypair k2).1,
                                _secretKey := some (P.seedKeypair k2).2 }
                else if keyCurve key == "sp" then
                  Except.ok { curve := some (keyCurve key), _isSecret := some true,
                              _secretKey := some k2,
                              _publicKey := some (P.secpPubCreate k2) }
                else if keyCurve key == "p2" then
                  Except.error KeyError.unsupportedCurve
                else Except.error KeyError.invalidKey
              else
                Except.ok { curve := some (keyCurve key), _isSecret := some false,
                            _publicKey := some k2, _secretKey := none }
        else Except.error KeyError.invalidKeyTag
      else Except.error KeyError.invalidKeyLength
    else Except.error KeyError.invalidCurve

/-- Outcome of the readiness promise of a Key. -/
inductive Readiness where
  | pending
  | resolved
  | rejected (e : KeyError)

deriving instance DecidableEq, Repr for Readiness

/-- The readiness promise as the constructor wires it (key.ts lines 32 to
34): `new Promise((resolve) => { this.initialize(key, passphrase, email,
resolve) })`. Only the resolve callback is handed to the asynchronous
initializer, and `initialize` calls it exactly on its success exits; an
error thrown inside the async initializer rejects the initializer"s own
promise, which the constructor discards, so the readiness promise is
resolved when initialization succeeds and stays pending forever when it
throws. -/
def keyReady (P : Primitives) (key : String) (passphrase email : Option String) :
    Readiness :=
  match initKey P key passphrase email with
  | Except.ok _ => Readiness.resolved
  | Except.error _ => Readiness.pending

/-- base58check encoding as the accessors call it, wrapping the codec
failure on absent input as the JavaScript type error it raises. -/
def encWrap (P : Primitives) (payload pfxBytes : Option (List Nat)) :
    Except KeyError String :=
  match P.b58cencode payload pfxBytes with
  | Except.ok s => Except.ok s
  | Except.error _ => Except.error KeyError.codecTypeError

/-- `Key.publicKey` (key.ts line 66): encode `this._publicKey` under the
table entry named `{curve}pk`, with no readiness or presence check. -/
def Key.publicKey (P : Primitives) (st : KeyState) : Except KeyError String :=
  encWrap P st._publicKey (P.tagBytes (jsCurveStr st.curve ++ "pk"))

/-- `Key.secretKey` (key.ts lines 73 to 84): throw when `this._secretKey`
is absent; for the ed curve re-derive the keypair from the first 32 bytes
of the stored secret and encode its private half; encode under the table
entry named `{curve}sk`. -/
def Key.secretKey (P : Primitives) (st : KeyState) : Except KeyError String :=
  match st._secretKey with
  | none => Except.error KeyError.noSecretKey
  | some k0 =>
    encWrap P
      (some (if st.curve = some "ed" then (P.seedKeypair (k0.take 32)).2 else k0))
      (P.tagBytes (jsCurveStr st.curve ++ "sk"))

/-- `Key.publicKeyHash` (key.ts lines 91 to 100): 20 byte generic hash of
`this._publicKey`, encoded under tz1, tz2 or tz3 by curve (an unknown
curve looks up an undefined entry). -/
def Key.publicKeyHash (P : Primitives) (st : KeyState) : Except KeyError String :=
  encWrap P (some (P.genericHash 20 (st._publicKey.getD [])))
    (match st.curve with
     | some "ed" => P.tagBytes "tz1"
     | some "sp" => P.tagBytes "tz2"
     | some "p2" => P.tagBytes "tz3"
     | _ => none)

/-- `utility.mergebuf(watermark, bb)` guarded by the undefined test of
key.ts lines 193 to 195. -/
def applyWatermark (watermark : Option (List Nat)) (bb : List Nat) : List Nat :=
  match watermark with
  | some w => w ++ bb
  | none => bb

/-- The record returned by `Key.sign`. -/
structure SignedResult where
  bytes : String
  sig : String
  edsig : String
  sbytes : String

deriving instance DecidableEq, Repr for SignedResult

/-- `Key.sign` (key.ts lines 191 to 211): hex-decode the message, prepend
the watermark when given, and for the ed curve hash the result to 32
bytes and sign the digest with detached Ed25519 signing, passing
`this._secretKey` as it stands, absent or not; return the sig and edsig
encodings and the signed bytes. Every other curve is unsupported. -/
def Key.sign (P : Primitives) (st : KeyState) (bytes : String)
    (watermark : Option (List Nat)) : Except KeyError SignedResult :=
  if st.curve = some "ed" then
    match P.signDetached (P.genericHash 32 (applyWatermark watermark (hex2buf bytes)))
        st._secretKey with
    | Except.error _ => Except.error KeyError.primitiveTypeError
    | Except.ok sig =>
      match encWrap P (some sig) (P.tagBytes "edsig"),
            encWrap P (some sig) (P.tagBytes "sig") with
      | Except.ok edsig, Except.ok sigStr =>
        Except.ok { bytes := bytes, sig := sigStr, edsig := edsig,
                    sbytes := bytes ++ buf2hex sig }
      | _, _ => Except.error KeyError.codecTypeError
  else Except.error KeyError.unsupportedCurve

/-- `Key.verify` (key.ts lines 219 to 240): require a public key; unless
the signature string starts with "sig" its first two characters must name
the same curve; for the ed curve pass the byte content of the signature
string itself (it is never base58check decoded) and the hex-decoded
message (it is never hashed) to detached verification, converting a
primitive failure into the invalid-signature error. -/
def Key.verify (P : Primitives) (st : KeyState) (bytes signature : String) :
    Except KeyError Bool :=
  match st._publicKey with
  | none => Except.error KeyError.missingPublicKey
  | some pk =>
    if jsSlice signature 0 3 ≠ "sig" ∧ st.curve ≠ some (jsSlice signature 0 2) then
      Except.error KeyError.curveMismatch
    else if st.curve = some "ed" then
      match P.verifyDetached (strBytes signature) (hex2buf bytes) pk with
      | Except.ok b => Except.ok b
      | Except.error _ => Except.error KeyError.invalidSignature
    else Except.error KeyError.unsupportedCurve

/-- A concrete, executable instance of the external capabilities, honest
where honesty matters: `seedKeypair` expands a seed `s` into the public
key `s` and the private key `s ++ s` (so the first 32 bytes of a derived
private key recover the seed, as for libsodium), `signDetached` of a
digest under a present private key is the digest followed by that key,
and `verifyDetached` accepts exactly the signature that `signDetached`
produces for the same digest under the private key belonging to the given
public key; `signDetached` fails on an absent key as libsodium does.
`b58cdecode` yields an 8 byte salt block followed by the bytes of the
consulted table entry, making the consulted tag name observable, and
`tagBytes` maps every tag name to its own bytes. -/
def probeP : Primitives where
  seedKeypair := fun s => (s, s ++ s)
  genericHash := fun n b => (b ++ List.replicate n 7).take n
  signDetached := fun d sk =>
    match sk with
    | some k => Except.ok (d ++ k)
    | none => Except.error ()
  verifyDetached := fun sig d pk => Except.ok (sig == d ++ pk ++ pk)
  secpPubCreate := fun s => 3 :: s
  pbkdf2Sync := fun _pw _salt _iter len => List.replicate len 3
  secretboxOpen := fun c _n _k => some c
  b58cencode := fun payload pfx =>
    match payload, pfx with
    | some b, some p => Except.ok (String.mk ((p ++ b).map Char.ofNat))
    | _, _ => Except.error ()
  b58cdecode := fun _s pfx =>
    match pfx with
    | some p => Except.ok (List.replicate 8 0 ++ p)
    | none => Except.error ()
  nfkd := fun s => s
  tagBytes := fun name => some (strBytes name)

/-- Fifty filler characters bringing a four character tag to the valid
total length 54. -/
def pad50 : String := "aaaaaaaaaaaaaaaaaaaaaaaaaaaaaaaaaaaaaaaaaaaaaaaaaa"

def p2pkKey : String := "p2pk" ++ pad50
def p2skKey : String := "p2sk" ++ pad50
def edskKey : String := "edsk" ++ pad50

/-- An encrypted public key credential: curve ed, marker e, tag pk,
length 54. -/
def edepkKey : String := "edepk" ++ "aaaaaaaaaaaaaaaaaaaaaaaaaaaaaaaaaaaaaaaaaaaaaaaaa"

/-- The sign and verify round trip of the spec (section 8): initialize a
key from a credential, sign a hex message, hand the sig-prefixed result
string back to verify on the same key and message. `none` when any step
fails, otherwise the boolean verdict of verify. -/
def roundTrip (P : Primitives) (key msg : String) : Option Bool :=
  match initKey P key none none with
  | Except.error _ => none
  | Except.ok st =>
    match Key.sign P st msg none with
    | Except.error _ => none
    | Except.ok r =>
      match Key.verify P st msg r.sig with
      | Except.error _ => none
      | Except.ok b => some b

/-- Sanity of the probe signature scheme: detached verification accepts
exactly the detached signature of the same digest under the private key
belonging to the public key, for every keypair the probe derives. -/
theorem probe_scheme_correct (seed digest : List Nat) :
    probeP.verifyDetached (digest ++ (probeP.seedKeypair seed).2) digest
      (probeP.seedKeypair seed).1 = Except.ok true := by
  simp [probeP, List.append_assoc]

/-- C1 counterexample: a p2 public key credential of valid length does
not fail; it initializes to a Ready key with curve p2 and the readiness
promise resolves. -/
theorem c1_counterexample :
    initKey probeP p2pkKey none none =
      Except.ok { _publicKey := some (List.replicate 8 0 ++ strBytes "p2pk"),
                  _secretKey := none, _isSecret := some false,
                  curve := some "p2" } ∧
    keyReady probeP p2pkKey none none = Readiness.resolved := by
  constructor <;> rfl

/-- C1 (amended): a p2 credential whose tag is sk never initializes to a
Ready key, whatever the passphrase; and when it is unencrypted, of valid
length, and base58check decoding succeeds, the failure is specifically
UnsupportedCurve. (A p2 credential with tag pk does initialize, see the
counterexample.) -/
theorem c1_p2_secret_rejected (P : Primitives) (key : String) (pw : Option String)
    (hc : keyCurve key = "p2") (ht : keyTag key = "sk") :
    (∀ st, initKey P key pw none ≠ Except.ok st) ∧
    (keyEncrypted key = false →
     (key.length = 54 ∨ key.length = 55 ∨ key.length = 88 ∨ key.length = 98) →
     ∀ d, P.b58cdecode key (P.tagBytes "p2sk") = Except.ok d →
     initKey P key pw none = Except.error KeyError.unsupportedCurve) := by
  constructor
  · intro st h
    simp only [initKey, hc, ht] at h
    iterate 6 (all_goals (try split at h))
    all_goals simp_all
  · intro henc hlen d hdec
    have h2 : (key.length == 54 || key.length == 55 || key.length == 88
        || key.length == 98) = true := by
      rcases hlen with h | h | h | h <;> simp [h]
    have hname : decodeTagName "p2" false true = "p2sk" := rfl
    simp [initKey, hc, ht, henc, h2, hname, hdec, decryptStep]

/-- C1 witness: the amended theorem applied at the concrete unencrypted
p2 secret credential and the probe capabilities. -/
theorem c1_witness :
    initKey probeP p2skKey none none = Except.error KeyError.unsupportedCurve :=
  (c1_p2_secret_rejected probeP p2skKey none rfl rfl).2 rfl (Or.inl rfl)
    (List.replicate 8 0 ++ strBytes "p2sk") rfl

/-- C3 (code bug): on the invalid credential "xx" the initializer throws
InvalidCurvePrefix, yet the readiness promise, wired with only a resolve
callback, is left pending forever instead of rejecting. -/
theorem c3_ready_left_pending :
    initKey probeP "xx" none none = Except.error KeyError.invalidCurve ∧
    keyReady probeP "xx" none none = Readiness.pending :=
  ⟨rfl, rfl⟩

/-- C5 counterexample: "xx" has a length outside 54, 55, 88, 98 and no
email is supplied, yet initialization fails with InvalidCurvePrefix, not
InvalidKeyLength, because the curve check runs first. -/
theorem c5_counterexample :
    ¬("xx".length = 54 ∨ "xx".length = 55 ∨ "xx".length = 88 ∨ "xx".length = 98) ∧
    initKey probeP "xx" none none = Except.error KeyError.invalidCurve ∧
    KeyError.invalidCurve ≠ KeyError.invalidKeyLength := by
  exact ⟨by decide, rfl, by decide⟩

/-- C5 (amended): with no email supplied, a string whose first two
characters are a valid curve tag and whose length is outside 54, 55, 88,
98 fails with InvalidKeyLength; a string whose first two characters are
not a valid curve tag fails with InvalidCurvePrefix regardless of its
length. -/
theorem c5_length_check_after_curve_check (P : Primitives) (key : String)
    (pw : Option String) :
    ((keyCurve key = "sp" ∨ keyCurve key = "p2" ∨ keyCurve key = "ed") →
     ¬(key.length = 54 ∨ key.length = 55 ∨ key.length = 88 ∨ key.length = 98) →
     initKey P key pw none = Except.error KeyError.invalidKeyLength) ∧
    (¬(keyCurve key = "sp" ∨ keyCurve key = "p2" ∨ keyCurve key = "ed") →
     initKey P key pw none = Except.error KeyError.invalidCurve) := by
  constructor
  · intro hcv hlen
    have h1 : (keyCurve key == "sp" || keyCurve key == "p2" || keyCurve key == "ed")
        = true := by
      rcases hcv with h | h | h <;> simp [h]
    have h2 : (key.length == 54 || key.length == 55 || key.length == 88
        || key.length == 98) = false := by
      push_neg at hlen
      simp only [Bool.or_eq_false_iff, beq_eq_false_iff_ne, ne_eq]
      exact ⟨⟨⟨hlen.1, hlen.2.1⟩, hlen.2.2.1⟩, hlen.2.2.2⟩
    simp [initKey, h1, h2]
  · intro hcv
    have h1 : (keyCurve key == "sp" || keyCurve key == "p2" || keyCurve key == "ed")
        = false := by
      push_neg at hcv
      simp only [Bool.or_eq_false_iff, beq_eq_false_iff_ne, ne_eq]
      exact ⟨⟨hcv.1, hcv.2.1⟩, hcv.2.2⟩
    simp [initKey, h1]

/-- C5 witness: the amended theorem applied at the concrete string "ed",
a valid curve tag of invalid total length. -/
theorem c5_witness :
    initKey probeP "ed" none none = Except.error KeyError.invalidKeyLength :=
  (c5_length_check_after_curve_check probeP "ed" none).1 (Or.inr (Or.inr rfl))
    (by decide)

/-- C2 (code bug): the sign and verify round trip is rejected. On the ed
key decoded from `edskKey` under the probe capabilities, whose detached
primitives do round-trip (see `probe_scheme_correct`), signing the even
length hex message "af" and verifying the returned sig string on the same
key and message yields false: sign hashes the message to 32 bytes and
base58check encodes the signature, while verify hands the raw signature
string and the unhashed message bytes to the primitive. -/
theorem c2_roundtrip_rejected : roundTrip probeP edskKey "af" = some false := by
  rfl

/-- C4 counterexample: on the freshly constructed Key, before
initialization has completed, publicKey does not fail with IllegalState;
the absent bytes reach the encoder and the failure is a codec type
error. -/
theorem c4_counterexample :
    Key.publicKey probeP freshKey = Except.error KeyError.codecTypeError ∧
    KeyError.codecTypeError ≠ KeyError.illegalState :=
  ⟨rfl, by decide⟩

/-- C4 (amended): publicKey performs no readiness check and can never
fail with IllegalState, on any state; when the public key bytes are
absent, the absent value and the prefix lookup are passed to the
base58check encoder, and an encoder failure surfaces as a codec type
error instead. -/
theorem c4_no_illegal_state (P : Primitives) (st : KeyState) :
    Key.publicKey P st ≠ Except.error KeyError.illegalState ∧
    (st._publicKey = none →
     P.b58cencode none (P.tagBytes (jsCurveStr st.curve ++ "pk")) = Except.error () →
     Key.publicKey P st = Except.error KeyError.codecTypeError) := by
  constructor
  · intro h
    unfold Key.publicKey encWrap at h
    split at h
    · simp at h
    · simp at h
  · intro hpk henc
    unfold Key.publicKey encWrap
    rw [hpk, henc]

/-- C4 witness: the amended theorem applied at the fresh state and the
probe capabilities, whose encoder rejects an absent payload. -/
theorem c4_witness :
    Key.publicKey probeP freshKey = Except.error KeyError.codecTypeError :=
  (c4_no_illegal_state probeP freshKey).2 rfl rfl

/-- C6 counterexample: for an encrypted public key credential the decode
prefix name chosen by the code is the plain pk name, not the name the
spec rule `{curve}{e if encrypted}{tag}` gives; concretely, initializing
`edepkKey` (curve ed, marker e, tag pk) under the probe capabilities,
whose decode output makes the consulted table entry observable, stores
the bytes of the entry named "edpk", not "edepk". -/
theorem c6_counterexample :
    decodeTagName "ed" true false ≠ specDecodeTagName "ed" true "pk" ∧
    keyEncrypted edepkKey = true ∧ keyTag edepkKey = "pk" ∧
    initKey probeP edepkKey (some "pw") none =
      Except.ok { _publicKey := some (strBytes "edpk"), _secretKey := none,
                  _isSecret := some false, curve := some "ed" } :=
  ⟨by decide, rfl, rfl, rfl⟩

/-- Helper for C6: initialization consults the prefix table only at the
nine names `{curve}{e if encrypted}sk` and `{curve}pk` for a valid curve,
so its result is unchanged when the two tables agree at those names. -/
theorem initKey_tagBytes_congr (P : Primitives) (f g : String → Option (List Nat))
    (key : String) (pw : Option String)
    (h : f (decodeTagName (keyCurve key) (keyEncrypted key) (keyTag key == "sk"))
       = g (decodeTagName (keyCurve key) (keyEncrypted key) (keyTag key == "sk"))) :
    initKey { P with tagBytes := f } key pw none
      = initKey { P with tagBytes := g } key pw none := by
  simp only [initKey,
    show ({ P with tagBytes := f } : Primitives).tagBytes = f from rfl,
    show ({ P with tagBytes := g } : Primitives).tagBytes = g from rfl,
    show ({ P with tagBytes := f } : Primitives).b58cdecode = P.b58cdecode from rfl,
    show ({ P with tagBytes := g } : Primitives).b58cdecode = P.b58cdecode from rfl,
    show ({ P with tagBytes := f } : Primitives).seedKeypair = P.seedKeypair from rfl,
    show ({ P with tagBytes := g } : Primitives).seedKeypair = P.seedKeypair from rfl,
    show ({ P with tagBytes := f } : Primitives).secpPubCreate = P.secpPubCreate from rfl,
    show ({ P with tagBytes := g } : Primitives).secpPubCreate = P.secpPubCreate from rfl,
    show (∀ d pp e, decryptStep { P with tagBytes := f } d pp e = decryptStep P d pp e)
      from fun _ _ _ => rfl,
    show (∀ d pp e, decryptStep { P with tagBytes := g } d pp e = decryptStep P d pp e)
      from fun _ _ _ => rfl,
    h]

/-- C6 (amended): the base58check decode of the encoded key path uses the
prefix named `{curve}{e if encrypted}sk` for a secret key and always the
plain `{curve}pk` name for a public key; the encrypted pk names are never
consulted. Formally, initialization is invariant under arbitrary changes
of the prefix table outside the nine secret and plain pk names. -/
theorem c6_decode_pk_name_plain (P : Primitives) (f : String → Option (List Nat))
    (key : String) (pw em : Option String)
    (hf : ∀ n, n = "edsk" ∨ n = "spsk" ∨ n = "p2sk" ∨ n = "edesk" ∨ n = "spesk" ∨
      n = "p2esk" ∨ n = "edpk" ∨ n = "sppk" ∨ n = "p2pk" → f n = P.tagBytes n) :
    initKey { P with tagBytes := f } key pw em = initKey P key pw em := by
  cases em with
  | some e => rfl
  | none =>
    by_cases hcv : (keyCurve key == "sp" || keyCurve key == "p2" || keyCurve key == "ed")
        = true
    · have hc : (keyCurve key = "sp" ∨ keyCurve key = "p2") ∨ keyCurve key = "ed" := by
        simpa using hcv
      have h : f (decodeTagName (keyCurve key) (keyEncrypted key) (keyTag key == "sk"))
          = P.tagBytes (decodeTagName (keyCurve key) (keyEncrypted key)
              (keyTag key == "sk")) := by
        apply hf
        rcases hc with (h | h) | h <;> rw [h] <;> unfold decodeTagName <;>
          cases keyEncrypted key <;> cases (keyTag key == "sk") <;> decide
      exact initKey_tagBytes_congr P f P.tagBytes key pw h
    · have h1 : (keyCurve key == "sp" || keyCurve key == "p2" || keyCurve key == "ed")
          = false := by
        simpa using hcv
      simp [initKey, h1]

/-- C6 witness: the amended theorem applied at the concrete encrypted
public key credential, a table differing from the probe table exactly at
the name "edepk", and the probe capabilities. -/
theorem c6_witness :
    initKey { probeP with
        tagBytes := fun n => if n = "edepk" then some [9, 9] else probeP.tagBytes n }
      edepkKey (some "pw") none = initKey probeP edepkKey (some "pw") none :=
  c6_decode_pk_name_plain probeP
    (fun n => if n = "edepk" then some [9, 9] else probeP.tagBytes n)
    edepkKey (some "pw") none
    (by intro n hn
        rcases hn with rfl | rfl | rfl | rfl | rfl | rfl | rfl | rfl | rfl <;> rfl)

/-- C7 (confirmed): fundraiser derivation is deterministic; any two key
states initialized from the same mnemonic, passphrase and email triple
have the same publicKeyHash. In the embedding every primitive is a
function, so the whole derivation path (PBKDF2 stretch, seed expansion,
hash encoding) is deterministic. -/
theorem c7_fundraiser_deterministic (P : Primitives) (m pw em : String)
    (st₁ st₂ : KeyState)
    (h₁ : initKey P m (some pw) (some em) = Except.ok st₁)
    (h₂ : initKey P m (some pw) (some em) = Except.ok st₂) :
    Key.publicKeyHash P st₁ = Key.publicKeyHash P st₂ := by
  rw [h₁] at h₂
  cases h₂
  rfl

/-- C7 witness: the theorem applied at a concrete triple under the probe
capabilities, both runs evaluating to the same fundraiser state. -/
theorem c7_witness :
    Key.publicKeyHash probeP
        { _publicKey := some (List.replicate 32 3),
          _secretKey := some (List.replicate 32 3 ++ List.replicate 32 3),
          _isSecret := some true, curve := some "ed" }
      = Key.publicKeyHash probeP
        { _publicKey := some (List.replicate 32 3),
          _secretKey := some (List.replicate 32 3 ++ List.replicate 32 3),
          _isSecret := some true, curve := some "ed" } :=
  c7_fundraiser_deterministic probeP "m" "p" "e" _ _ rfl rfl

/-- C8 (confirmed): every successful initialization that records
`isSecret = false` leaves the secret key field absent. -/
theorem c8_public_only_has_no_secret (P : Primitives) (key : String)
    (pw em : Option String) (st : KeyState)
    (h : initKey P key pw em = Except.ok st) (hs : st._isSecret = some false) :
    st._secretKey = none := by
  simp only [initKey] at h
  cases em with
  | some e =>
    cases pw with
    | none => simp at h
    | some p =>
      injection h with h2
      subst h2
      simp_all
  | none =>
    iterate 12 (all_goals (try split at h))
    all_goals (try (injection h with h2))
    all_goals (try subst h2)
    all_goals simp_all

/-- C8 witness: the theorem applied at the concrete p2 public key
credential and the probe capabilities. -/
theorem c8_witness :
    ({ _publicKey := some (List.replicate 8 0 ++ strBytes "p2pk"),
       _secretKey := none, _isSecret := some false,
       curve := some "p2" } : KeyState)._secretKey = none :=
  c8_public_only_has_no_secret probeP p2pkKey none none _ rfl rfl

/-- C9 (confirmed): secretKey fails with NoSecretKey exactly when the
secret key field is absent, and on an ed curve state with a stored secret
it deterministically re-derives the keypair from the first 32 bytes of
the stored secret and encodes the derived private key under the edsk
prefix entry. -/
theorem c9_secret_key_access (P : Primitives) (st : KeyState) :
    (Key.secretKey P st = Except.error KeyError.noSecretKey ↔ st._secretKey = none) ∧
    (∀ k, st._secretKey = some k → st.curve = some "ed" →
      Key.secretKey P st = encWrap P (some ((P.seedKeypair (k.take 32)).2))
        (P.tagBytes "edsk")) := by
  constructor
  · cases hsk : st._secretKey with
    | none =>
      constructor
      · intro _
        rfl
      · intro _
        unfold Key.secretKey
        rw [hsk]
    | some k =>
      constructor
      · intro h
        exfalso
        unfold Key.secretKey at h
        rw [hsk] at h
        split at h
        · simp_all
        · unfold encWrap at h
          split at h <;> simp_all
      · intro hn
        exact Option.noConfusion hn
  · intro k hk hc
    unfold Key.secretKey
    rw [hk, hc]
    rfl

/-- C9 witness: the theorem applied at a concrete ed state holding a 64
byte secret, under the probe capabilities. -/
theorem c9_witness :
    Key.secretKey probeP
        { _secretKey := some (List.replicate 64 5), curve := some "ed",
          _publicKey := some (List.replicate 32 5), _isSecret := some true }
      = encWrap probeP (some ((probeP.seedKeypair ((List.replicate 64 5).take 32)).2))
          (probeP.tagBytes "edsk") :=
  (c9_secret_key_access probeP _).2 (List.replicate 64 5) rfl rfl

/-- C10 (confirmed): on a Ready ed state holding no secret key, sign
never fails with the missing secret key kind; no presence check guards
the secret, and the absent value is passed directly to the detached
signing primitive, whose rejection surfaces as a primitive type error. -/
theorem c10_sign_without_secret (P : Primitives) (st : KeyState) (msg : String)
    (wm : Option (List Nat)) (hc : st.curve = some "ed") (hs : st._secretKey = none) :
    Key.sign P st msg wm ≠ Except.error KeyError.noSecretKey ∧
    (P.signDetached (P.genericHash 32 (applyWatermark wm (hex2buf msg))) none
        = Except.error () →
     Key.sign P st msg wm = Except.error KeyError.primitiveTypeError) := by
  constructor
  · intro h
    unfold Key.sign at h
    rw [hc, hs] at h
    simp only [if_pos] at h
    split at h
    · simp at h
    · split at h
      · simp at h
      · simp at h
  · intro hsign
    unfold Key.sign
    rw [hc, hs, hsign]
    rfl

/-- C10 witness: the theorem applied at a concrete ed state with no
secret key, under the probe capabilities, whose signing primitive rejects
an absent key. -/
theorem c10_witness :
    Key.sign probeP
        { curve := some "ed", _publicKey := some (List.replicate 32 1),
          _isSecret := some false } "af" none
      = Except.error KeyError.primitiveTypeError :=
  (c10_sign_without_secret probeP _ "af" none rfl rfl).2 rfl
